import Mathlib

/-!
Verification of the Paper Search Wrapper
(src/Multi-Agent/arxiv_tools/get_arxiv_tools.py, class ArxivAPIWrapper).

Python strings are modelled as lists of characters (List Char), so that
slicing, joining and splitting coincide with List.take, List.intercalate
and an explicit split function. The external arxiv search client is
modelled as a function from the submitted query and the max-results count
to either a recognized search error or a finite list of results; the three
recognized exception classes (arxiv.ArxivError, arxiv.UnexpectedEmptyPageError,
arxiv.HTTPError) become the three constructors of ArxivErr.
-/

set_option autoImplicit false

namespace ArxivWrapper

/-- A Python string, as its sequence of characters. -/
abbrev Str := List Char

/-- Character data of a Lean string literal, used to write Str constants. -/
def chars (s : String) : Str := s.data

/-- The three recognized search-API error kinds, from the tuple
arxiv_exceptions = (arxiv.ArxivError, arxiv.UnexpectedEmptyPageError,
arxiv.HTTPError). Each carries its message, the rendering produced by
Python str(ex). -/
inductive ArxivErr where
  | arxivError (msg : Str)
  | unexpectedEmptyPage (msg : Str)
  | httpError (msg : Str)
deriving DecidableEq

/-- str(ex) for a recognized search exception: its carried message. -/
def ArxivErr.render : ArxivErr → Str
  | .arxivError m => m
  | .unexpectedEmptyPage m => m
  | .httpError m => m

/-- One arxiv.Result, as read by the wrapper. updated_date and
published_date are the ISO renderings of result.updated.date() and
result.published.date(); authors is the list of a.name for the authors;
links is the list of link.href; pdf_pages is the text of each page
of the PDF that result.download_pdf() fetches, in page order, as
extracted by page.get_text(). comment, journal_ref and doi may be
Python None, hence Option. -/
structure SearchResult where
  entry_id : Str
  updated_date : Str
  published_date : Str
  title : Str
  authors : List Str
  summary : Str
  comment : Option Str
  journal_ref : Option Str
  doi : Option Str
  primary_category : Str
  categories : List Str
  links : List Str
  pdf_pages : List Str
deriving DecidableEq

/-- A value stored in a Document's metadata dict. The wrapper stores
strings, one raw date object (result.updated.date() in
get_summaries_as_docs, carried here by its ISO rendering), optional
strings (fields that may be None), and lists of strings. -/
inductive MetaValue where
  | str (s : Str)
  | date (d : Str)
  | optStr (o : Option Str)
  | strList (l : List Str)
deriving DecidableEq

/-- langchain_core.documents.Document: page_content plus a metadata dict.
The dict is modelled as an association list in insertion order; when the
wrapper builds a Document without a metadata argument, the default is the
empty dict. -/
structure Document where
  page_content : Str
  metadata : List (Str × MetaValue)
deriving DecidableEq

/-- The construction-time configuration attributes of ArxivAPIWrapper,
with the class defaults. doc_content_chars_max = none models the Python
None ("no limit"). -/
structure Config where
  top_k_results : Nat := 3
  ARXIV_MAX_QUERY_LENGTH : Nat := 300
  continue_on_failure : Bool := false
  load_max_docs : Nat := 500
  load_all_available_meta : Bool := true
  doc_content_chars_max : Option Nat := some 40000

/-- The wrapper instance with all defaults, as in ArxivAPIWrapper(). -/
def defaultConfig : Config := {}

/-- The external search client: given the submitted query string and the
max_results bound, either raises a recognized error or returns the finite
result sequence. self.client.results(search) is consumed into a list. -/
abbrev Client := Str → Nat → Except ArxivErr (List SearchResult)

/-- Python s[:n] for n a non-negative int, and s[:None] when the limit
is absent: truncation of a string to at most n characters. -/
def truncate : Option Nat → Str → Str
  | none, s => s
  | some n, s => s.take n

/-- The query actually submitted by _fetch_results:
query[: self.ARXIV_MAX_QUERY_LENGTH]. -/
def submitted_query (cfg : Config) (query : Str) : Str :=
  query.take cfg.ARXIV_MAX_QUERY_LENGTH

/-- _fetch_results: build the search from the truncated query and
top_k_results, and run it through the client. -/
def fetch_results (cfg : Config) (client : Client) (query : Str) :
    Except ArxivErr (List SearchResult) :=
  client (submitted_query cfg query) cfg.top_k_results

/-- ", ".join(a.name for a in result.authors) -/
def commaJoin (names : List Str) : Str :=
  List.intercalate (chars ", ") names

/-- The sentinel text f-string rendering: the characters of
"Arxiv exception: " followed by str(ex). -/
def arxivExceptionMsg (ex : ArxivErr) : Str :=
  chars "Arxiv exception: " ++ ex.render

/-- The metadata dict built by get_summaries_as_docs for one result:
Entry ID, Published (the raw date object result.updated.date()), Title,
Authors (comma-joined names). -/
def summaryMetadata (r : SearchResult) : List (Str × MetaValue) :=
  [ (chars "Entry ID", MetaValue.str r.entry_id),
    (chars "Published", MetaValue.date r.updated_date),
    (chars "Title", MetaValue.str r.title),
    (chars "Authors", MetaValue.str (commaJoin r.authors)) ]

/-- get_summaries_as_docs: on a recognized search error, a single
Document whose content is the sentinel text and whose metadata is the
default empty dict; otherwise one Document per result, content the
summary verbatim, metadata the four summary-mode keys. -/
def get_summaries_as_docs (cfg : Config) (client : Client) (query : Str) :
    List Document :=
  match fetch_results cfg client query with
  | .error ex => [⟨arxivExceptionMsg ex, []⟩]
  | .ok results =>
      results.map (fun r => ⟨r.summary, summaryMetadata r⟩)

/-- The four-line block run renders for one result:
Published, Title, Authors, Summary, separated by single newlines. -/
def renderBlock (r : SearchResult) : Str :=
  chars "Published: " ++ r.updated_date ++
  chars "\nTitle: " ++ r.title ++
  chars "\nAuthors: " ++ commaJoin r.authors ++
  chars "\nSummary: " ++ r.summary

/-- The block separator "\n\n". -/
def nnSep : Str := chars "\n\n"

/-- run: sentinel string on a recognized search error; otherwise the
blocks joined with "\n\n" and truncated to doc_content_chars_max, or the
fixed no-result string when the result sequence is empty. -/
def run (cfg : Config) (client : Client) (query : Str) : Str :=
  match fetch_results cfg client query with
  | .error ex => arxivExceptionMsg ex
  | .ok results =>
      let docs := results.map renderBlock
      if docs ≠ [] then
        truncate cfg.doc_content_chars_max (List.intercalate nnSep docs)
      else
        chars "No good Arxiv Result was found"

/-- Errors the full-text path can raise to its caller: the ImportError
for a missing fitz (PyMuPDF) package, or an uncaught recognized search
error (lazy_load wraps _fetch_results in no try/except). -/
inductive LoadErr where
  | importError
  | searchErr (e : ArxivErr)
deriving DecidableEq

/-- query.replace(":", "").replace("-", ""): every colon and hyphen is
removed before the full-text search is submitted. -/
def scrub (q : Str) : Str :=
  q.filter (fun c => !(c = ':' || c = '-'))

/-- The extended metadata dict built by lazy_load when
load_all_available_meta is set. -/
def extraMetadata (r : SearchResult) : List (Str × MetaValue) :=
  [ (chars "entry_id", MetaValue.str r.entry_id),
    (chars "published_first_time", MetaValue.str r.published_date),
    (chars "comment", MetaValue.optStr r.comment),
    (chars "journal_ref", MetaValue.optStr r.journal_ref),
    (chars "doi", MetaValue.optStr r.doi),
    (chars "primary_category", MetaValue.str r.primary_category),
    (chars "categories", MetaValue.strList r.categories),
    (chars "links", MetaValue.strList r.links) ]

/-- The base metadata dict built by lazy_load for every result:
Published (str of the updated date), Title, Authors, Summary. -/
def loadBaseMetadata (r : SearchResult) : List (Str × MetaValue) :=
  [ (chars "Published", MetaValue.str r.updated_date),
    (chars "Title", MetaValue.str r.title),
    (chars "Authors", MetaValue.str (commaJoin r.authors)),
    (chars "Summary", MetaValue.str r.summary) ]

/-- The Document lazy_load yields for one result: page extraction text
joined by "".join, truncated to doc_content_chars_max, with the base
metadata followed by the extended metadata when enabled. -/
def makeLoadDoc (cfg : Config) (r : SearchResult) : Document :=
  ⟨ truncate cfg.doc_content_chars_max r.pdf_pages.flatten,
    loadBaseMetadata r ++
      (if cfg.load_all_available_meta then extraMetadata r else []) ⟩

/-- The value of running the lazy_load generator body to completion:
the fitz import check first (raising ImportError when the package is
absent, before any search request), then the search on the scrubbed
query with no try/except around it (a recognized search error escapes),
then one Document per result in result order. Errors land in the error
channel, never in a sentinel Document. load(query) is
list(self.lazy_load(query)), the same computation run eagerly, so it is
this same function. -/
def lazy_load_run (cfg : Config) (fitzAvailable : Bool) (client : Client)
    (query : Str) : Except LoadErr (List Document) :=
  if !fitzAvailable then .error .importError
  else
    match fetch_results cfg client (scrub query) with
    | .error e => .error (.searchErr e)
    | .ok results => .ok (results.map (makeLoadDoc cfg))

/-- The observable steps the lazy_load generator body executes, used to
reason about when the temporary PDF file of each result exists on disk
and when the dependency check runs. -/
inductive Event where
  | importCheck
  | searchCall
  | download (i : Nat)
  | extract (i : Nat)
  | yieldDoc (i : Nat)
  | removeFile (i : Nat)
deriving DecidableEq

/-- The loop body events for results i, i+1, ..., i+m-1, in the order
the source executes them: download_pdf, fitz text extraction, the yield
of the Document, then os.remove of the downloaded file. -/
def bodyTrace : Nat → Nat → List Event
  | _, 0 => []
  | i, m + 1 =>
      Event.download i :: Event.extract i :: Event.yieldDoc i ::
        Event.removeFile i :: bodyTrace (i + 1) m

/-- The complete success-path event trace of lazy_load on n results,
consumed to exhaustion: the import check, the search call, then the
per-result loop. -/
def lazy_load_trace (n : Nat) : List Event :=
  Event.importCheck :: Event.searchCall :: bodyTrace 0 n

/-- Python generator-call semantics: calling lazy_load(query) only
creates a suspended generator; no statement of the body — not even the
fitz import check — executes until the first Document is requested, so
the list of body events executed by the call itself is empty. -/
def lazy_load_call_trace : List Event := []

/-- The body events executed when fitz is unavailable: the generator is
resumed, runs the import check, and raises ImportError before the
search call. -/
def failed_import_trace : List Event := [Event.importCheck]

/-- Whether the temporary PDF file of result i exists on disk after the
given events have executed: it has been downloaded and not yet removed. -/
def fileExists (tr : List Event) (i : Nat) : Bool :=
  decide (Event.download i ∈ tr) && !decide (Event.removeFile i ∈ tr)

/-- Python text.split on the two-character separator "\n\n": greedy
leftmost non-overlapping matches, each match cutting a piece. The result
is always one more piece than the number of matches consumed. -/
def splitNN : Str → List Str
  | [] => [[]]
  | [c] => [[c]]
  | c1 :: c2 :: rest =>
      if c1 = '\n' ∧ c2 = '\n' then [] :: splitNN rest
      else (c1 :: (splitNN (c2 :: rest)).headD []) :: (splitNN (c2 :: rest)).tail

/-- Whether the string contains two consecutive newline characters. -/
def hasNN : Str → Bool
  | [] => false
  | [_] => false
  | c1 :: c2 :: rest =>
      if c1 = '\n' ∧ c2 = '\n' then true else hasNN (c2 :: rest)

/-- Whether the string ends with a newline character. -/
def endsNL (l : Str) : Bool :=
  match l with
  | [] => false
  | [c] => c = '\n'
  | _ :: rest => endsNL rest

/-- A rendered block is clean when it contains no "\n\n" and does not
end with a newline; joining clean blocks with "\n\n" is then undone
exactly by splitNN. -/
def cleanBlock (b : Str) : Bool :=
  !hasNN b && !endsNL b

theorem splitNN_ne_nil (l : Str) : splitNN l ≠ [] := by
  match l with
  | [] => simp [splitNN]
  | [c] => simp [splitNN]
  | c1 :: c2 :: rest =>
      rw [splitNN]
      split <;> simp

theorem splitNN_of_not_hasNN (l : Str) (h : hasNN l = false) :
    splitNN l = [l] := by
  match l with
  | [] => simp [splitNN]
  | [c] => simp [splitNN]
  | c1 :: c2 :: rest =>
      rw [hasNN] at h
      rw [splitNN]
      split
      · simp_all
      · rw [splitNN_of_not_hasNN (c2 :: rest) (by split at h <;> simp_all)]
        simp

theorem splitNN_append_sep (b s : Str) (hnn : hasNN b = false)
    (hend : endsNL b = false) :
    splitNN (b ++ '\n' :: '\n' :: s) = b :: splitNN s := by
  match b with
  | [] =>
      simp only [List.nil_append]
      rw [splitNN]
      simp
  | [c] =>
      have hc : ¬ c = '\n' := by simpa [endsNL] using hend
      simp only [List.cons_append, List.nil_append]
      rw [splitNN]
      split
      · simp_all
      · rw [splitNN]
        simp [splitNN_ne_nil s]
  | c1 :: c2 :: rest =>
      have hnn2 : hasNN (c2 :: rest) = false := by
        rw [hasNN] at hnn
        split at hnn <;> simp_all
      have hnc : ¬ (c1 = '\n' ∧ c2 = '\n') := by
        rw [hasNN] at hnn
        split at hnn <;> simp_all
      have hend2 : endsNL (c2 :: rest) = false := by
        simpa [endsNL] using hend
      simp only [List.cons_append]
      rw [splitNN]
      split
      · exact absurd (by simp_all) hnc
      · have h3 := splitNN_append_sep (c2 :: rest) s hnn2 hend2
        rw [List.cons_append] at h3
        rw [h3]
        simp

theorem splitNN_intercalate (blocks : List Str)
    (hb : blocks ≠ [])
    (hc : ∀ b ∈ blocks, cleanBlock b = true) :
    splitNN (List.intercalate nnSep blocks) = blocks := by
  match blocks with
  | [] => exact absurd rfl hb
  | [b] =>
      have := hc b (by simp)
      simp only [cleanBlock, Bool.and_eq_true, Bool.not_eq_true'] at this
      rw [List.intercalate]
      simp only [List.intersperse_singleton, List.flatten, List.append_nil]
      exact splitNN_of_not_hasNN b this.1
  | b :: b2 :: rest =>
      have hcb := hc b (by simp)
      simp only [cleanBlock, Bool.and_eq_true, Bool.not_eq_true'] at hcb
      have hstep : List.intercalate nnSep (b :: b2 :: rest) =
          b ++ '\n' :: '\n' :: List.intercalate nnSep (b2 :: rest) := by
        simp only [List.intercalate, List.intersperse]
        simp [nnSep, chars]
      rw [hstep, splitNN_append_sep b _ hcb.1 hcb.2,
        splitNN_intercalate (b2 :: rest) (by simp)
          (fun x hx => hc x (by simp [hx]))]

theorem bodyTrace_succ (i m : Nat) :
    bodyTrace i (m + 1) = Event.download i :: Event.extract i ::
      Event.yieldDoc i :: Event.removeFile i :: bodyTrace (i + 1) m := rfl

theorem mem_bodyTrace_of_lt (m : Nat) :
    ∀ i j, i ≤ j → j < i + m →
      Event.download j ∈ bodyTrace i m ∧ Event.removeFile j ∈ bodyTrace i m := by
  induction m with
  | zero => intro i j h1 h2; omega
  | succ m ih =>
      intro i j h1 h2
      rw [bodyTrace_succ]
      by_cases hj : j = i
      · subst hj; simp
      · have := ih (i + 1) j (by omega) (by omega)
        simp [this.1, this.2]

theorem not_mem_bodyTrace (m : Nat) :
    ∀ i j, j < i ∨ i + m ≤ j →
      Event.download j ∉ bodyTrace i m ∧ Event.removeFile j ∉ bodyTrace i m := by
  induction m with
  | zero => intro i j _; simp [bodyTrace]
  | succ m ih =>
      intro i j h
      rw [bodyTrace_succ]
      have hji : j ≠ i := by omega
      have := ih (i + 1) j (by omega)
      simp [hji, this.1, this.2]

theorem bodyTrace_take_mul (k : Nat) :
    ∀ i m, k ≤ m → (bodyTrace i m).take (4 * k) = bodyTrace i k := by
  induction k with
  | zero => intro i m _; simp [bodyTrace]
  | succ k ih =>
      intro i m h
      match m with
      | m + 1 =>
          rw [bodyTrace_succ, bodyTrace_succ,
            show 4 * (k + 1) = 4 * k + 1 + 1 + 1 + 1 from by omega]
          simp only [List.take_succ_cons]
          rw [ih (i + 1) m (by omega)]

theorem bodyTrace_take_mid (k : Nat) :
    ∀ i m, k < m → (bodyTrace i m).take (4 * k + 3) =
      bodyTrace i k ++
        [Event.download (i + k), Event.extract (i + k), Event.yieldDoc (i + k)] := by
  induction k with
  | zero =>
      intro i m h
      match m with
      | m + 1 => simp [bodyTrace_succ, bodyTrace]
  | succ k ih =>
      intro i m h
      match m with
      | m + 1 =>
          rw [bodyTrace_succ, bodyTrace_succ,
            show 4 * (k + 1) + 3 = 4 * k + 3 + 1 + 1 + 1 + 1 from by omega]
          simp only [List.take_succ_cons]
          rw [ih (i + 1) m (by omega)]
          simp only [List.cons_append, List.nil_append]
          rw [show i + 1 + k = i + (k + 1) from by omega]

theorem bodyTrace_getElem (k : Nat) :
    ∀ i m, k < m →
      (bodyTrace i m)[4 * k]? = some (Event.download (i + k)) ∧
      (bodyTrace i m)[4 * k + 2]? = some (Event.yieldDoc (i + k)) ∧
      (bodyTrace i m)[4 * k + 3]? = some (Event.removeFile (i + k)) := by
  induction k with
  | zero =>
      intro i m h
      match m with
      | m + 1 => simp [bodyTrace_succ]
  | succ k ih =>
      intro i m h
      match m with
      | m + 1 =>
          rw [bodyTrace_succ]
          have h4 : 4 * (k + 1) = 4 * k + 4 := by omega
          have := ih (i + 1) m (by omega)
          rw [show i + 1 + k = i + (k + 1) from by omega] at this
          refine ⟨?_, ?_, ?_⟩
          · rw [show 4 * (k + 1) = 4 * k + 1 + 1 + 1 + 1 from by omega]
            simpa using this.1
          · rw [show 4 * (k + 1) + 2 = 4 * k + 2 + 1 + 1 + 1 + 1 from by omega]
            simpa using this.2.1
          · rw [show 4 * (k + 1) + 3 = 4 * k + 3 + 1 + 1 + 1 + 1 from by omega]
            simpa using this.2.2

/-! Concrete fixtures: a sample result, clients with a fixed outcome,
and configurations that vary one attribute. -/

/-- A concrete search result used to instantiate hypotheses. -/
def sampleResult : SearchResult where
  entry_id := chars "http://arxiv.org/abs/2404.19756v4"
  updated_date := chars "2024-06-16"
  published_date := chars "2024-04-30"
  title := chars "KAN"
  authors := [chars "Liu", chars "Wang"]
  summary := chars "Inspired by nets."
  comment := some (chars "48 pages")
  journal_ref := none
  doi := none
  primary_category := chars "cs.LG"
  categories := [chars "cs.LG", chars "stat.ML"]
  links := [chars "http://arxiv.org/abs/2404.19756v4"]
  pdf_pages := [chars "page one ", chars "page two"]

/-- A result whose summary contains a blank line. -/
def nnResult : SearchResult :=
  { sampleResult with summary := chars "First part.\n\nSecond part." }

/-- A client whose search always succeeds with the given results. -/
def okClient (rs : List SearchResult) : Client := fun _ _ => .ok rs

/-- A client whose search always raises the given recognized error. -/
def errClient (e : ArxivErr) : Client := fun _ _ => .error e

/-- A concrete recognized search error. -/
def sampleErr : ArxivErr :=
  ArxivErr.httpError (chars "Page request resulted in HTTP 500")

/-- The default configuration with the content limit set to None. -/
def noLimitConfig : Config := { doc_content_chars_max := none }

/-- A configuration with full-metadata mode off and no content limit. -/
def noMetaConfig : Config :=
  { load_all_available_meta := false, doc_content_chars_max := none }

/-- A configuration with a content limit of 5 characters. -/
def tinyConfig : Config := { doc_content_chars_max := some 5 }

/-- A configuration with a maximum query length of 3 characters. -/
def queryCfg : Config := { ARXIV_MAX_QUERY_LENGTH := 3 }

/-! The claims. -/

/-- C1, counterexample: a recognized search error (an HTTP error) raised
by the client escapes lazy_load — and hence load, which materializes it —
as an exception in the error channel, instead of being converted to an
"Arxiv exception: ..." sentinel value. The source wraps _fetch_results in
try/except in run and get_summaries_as_docs only; lazy_load calls it with
no handler. This refutes the claim that no recognized search exception
ever escapes any of the four public operations. -/
theorem C1_counterexample :
    lazy_load_run defaultConfig true (errClient sampleErr) (chars "KAN") =
      Except.error (LoadErr.searchErr sampleErr) := rfl

/-- C1, as amended: the search-error-to-sentinel conversion holds for run
(which returns the sentinel string) and get_summaries_as_docs (which
returns one sentinel Document), but load and lazy_load propagate the
recognized search error to the caller. -/
theorem C1_amended (cfg : Config) (client : Client) (q : Str)
    (ex exS : ArxivErr)
    (h : client (submitted_query cfg q) cfg.top_k_results = Except.error ex)
    (hS : client (submitted_query cfg (scrub q)) cfg.top_k_results =
      Except.error exS) :
    run cfg client q = arxivExceptionMsg ex ∧
    get_summaries_as_docs cfg client q = [⟨arxivExceptionMsg ex, []⟩] ∧
    lazy_load_run cfg true client q =
      Except.error (LoadErr.searchErr exS) := by
  refine ⟨?_, ?_, ?_⟩
  · simp [run, fetch_results, h]
  · simp [get_summaries_as_docs, fetch_results, h]
  · simp [lazy_load_run, fetch_results, hS]

/-- C1, witness: the amended statement at a concrete erroring client. -/
theorem C1_amended_witness :
    run defaultConfig (errClient sampleErr) (chars "KAN") =
      arxivExceptionMsg sampleErr ∧
    get_summaries_as_docs defaultConfig (errClient sampleErr) (chars "KAN") =
      [⟨arxivExceptionMsg sampleErr, []⟩] ∧
    lazy_load_run defaultConfig true (errClient sampleErr) (chars "KAN") =
      Except.error (LoadErr.searchErr sampleErr) :=
  C1_amended defaultConfig (errClient sampleErr) (chars "KAN")
    sampleErr sampleErr rfl rfl

/-- C2: on a successful search with a non-empty result sequence,
get_summaries_as_docs returns one Document per result in client order;
each content is the result's summary verbatim (no truncation in this
mode), and each metadata is exactly the four summary-mode entries
Entry ID, Published (the updated date), Title, and Authors (names joined
with a comma and space), in that order. -/
theorem C2_confirmed (cfg : Config) (client : Client) (q : Str)
    (results : List SearchResult)
    (h : client (submitted_query cfg q) cfg.top_k_results = Except.ok results)
    (_hne : results ≠ []) :
    get_summaries_as_docs cfg client q =
      results.map (fun r => ⟨r.summary, summaryMetadata r⟩) ∧
    ∀ r ∈ results, (summaryMetadata r).map Prod.fst =
      [chars "Entry ID", chars "Published", chars "Title", chars "Authors"] := by
  refine ⟨?_, ?_⟩
  · simp [get_summaries_as_docs, fetch_results, h]
  · intro r _
    rfl

/-- C2, witness: the theorem at a concrete one-result client; the
summary (17 characters) exceeds no limit check because none applies. -/
theorem C2_witness :
    get_summaries_as_docs tinyConfig (okClient [sampleResult]) (chars "KAN") =
      [sampleResult].map (fun r => ⟨r.summary, summaryMetadata r⟩) ∧
    ∀ r ∈ [sampleResult], (summaryMetadata r).map Prod.fst =
      [chars "Entry ID", chars "Published", chars "Title", chars "Authors"] :=
  C2_confirmed tinyConfig (okClient [sampleResult]) (chars "KAN")
    [sampleResult] rfl (by simp)

/-- C3, counterexample: with one result whose summary contains a blank
line, run returns the single rendered block (no truncation configured),
but splitting that pre-truncation text on the double-newline separator
yields two pieces, not one block per result: the separator also occurs
inside the summary, and the source does not escape it. -/
theorem C3_counterexample :
    run noLimitConfig (okClient [nnResult]) (chars "KAN") =
      List.intercalate nnSep ([nnResult].map renderBlock) ∧
    (splitNN (List.intercalate nnSep ([nnResult].map renderBlock))).length = 2 ∧
    [nnResult].length = 1 := by
  refine ⟨rfl, ?_, rfl⟩
  decide

/-- C3, as amended: on a successful non-empty search, run renders the
four-line block per result, joins the blocks with a blank line and
truncates to doc_content_chars_max (no truncation when the limit is
None), so the output is never longer than the configured limit; and
splitting the pre-truncation text on the double-newline separator yields
exactly one block per result provided no rendered block contains two
consecutive newlines or ends with a newline. -/
theorem C3_amended (cfg : Config) (client : Client) (q : Str)
    (results : List SearchResult)
    (h : client (submitted_query cfg q) cfg.top_k_results = Except.ok results)
    (hne : results ≠ [])
    (hclean : ∀ r ∈ results, cleanBlock (renderBlock r) = true) :
    run cfg client q =
      truncate cfg.doc_content_chars_max
        (List.intercalate nnSep (results.map renderBlock)) ∧
    (splitNN (List.intercalate nnSep (results.map renderBlock))).length =
      results.length ∧
    (∀ m, cfg.doc_content_chars_max = some m → (run cfg client q).length ≤ m) ∧
    (cfg.doc_content_chars_max = none → run cfg client q =
      List.intercalate nnSep (results.map renderBlock)) := by
  have hmapne : results.map renderBlock ≠ [] := by
    simpa using hne
  have hrun : run cfg client q =
      truncate cfg.doc_content_chars_max
        (List.intercalate nnSep (results.map renderBlock)) := by
    simp [run, fetch_results, h, hmapne]
  have hsplit : splitNN (List.intercalate nnSep (results.map renderBlock)) =
      results.map renderBlock := by
    refine splitNN_intercalate (results.map renderBlock) hmapne ?_
    intro b hb
    obtain ⟨r, hr, rfl⟩ := List.mem_map.mp hb
    exact hclean r hr
  refine ⟨hrun, ?_, ?_, ?_⟩
  · rw [hsplit, List.length_map]
  · intro m hm
    rw [hrun, hm, truncate]
    exact List.length_take_le m _
  · intro hm
    rw [hrun, hm, truncate]

/-- C3, witness: the amended statement at a single clean result. -/
theorem C3_amended_witness :
    run defaultConfig (okClient [sampleResult]) (chars "KAN") =
      truncate defaultConfig.doc_content_chars_max
        (List.intercalate nnSep ([sampleResult].map renderBlock)) ∧
    (splitNN (List.intercalate nnSep ([sampleResult].map renderBlock))).length =
      [sampleResult].length ∧
    (∀ m, defaultConfig.doc_content_chars_max = some m →
      (run defaultConfig (okClient [sampleResult]) (chars "KAN")).length ≤ m) ∧
    (defaultConfig.doc_content_chars_max = none →
      run defaultConfig (okClient [sampleResult]) (chars "KAN") =
        List.intercalate nnSep ([sampleResult].map renderBlock)) :=
  C3_amended defaultConfig (okClient [sampleResult]) (chars "KAN")
    [sampleResult] rfl (by simp) (by decide)

/-- C4, counterexample: with full-metadata mode off, the Document
lazy_load produces carries the metadata keys Published, Title, Authors
and Summary — a Summary key the claim does not allow, and no Entry ID
key, unlike the summary-projection metadata of get_summaries_as_docs.
The claimed base key set is therefore wrong for the full-text path. -/
theorem C4_counterexample :
    lazy_load_run noMetaConfig true (okClient [sampleResult]) (chars "KAN") =
      Except.ok [makeLoadDoc noMetaConfig sampleResult] ∧
    (makeLoadDoc noMetaConfig sampleResult).metadata.map Prod.fst =
      [chars "Published", chars "Title", chars "Authors", chars "Summary"] ∧
    chars "Entry ID" ∉
      (makeLoadDoc noMetaConfig sampleResult).metadata.map Prod.fst := by
  refine ⟨rfl, rfl, ?_⟩
  decide

/-- C4, as amended: every Document produced by lazy_load (and load)
carries the base metadata keys Published, Title, Authors and Summary,
followed by the extended key set entry_id, published_first_time,
comment, journal_ref, doi, primary_category, categories and links
exactly when full-metadata mode is enabled; no other keys appear. -/
theorem C4_amended (cfg : Config) (client : Client) (q : Str)
    (results : List SearchResult)
    (h : client (submitted_query cfg (scrub q)) cfg.top_k_results =
      Except.ok results) :
    lazy_load_run cfg true client q =
      Except.ok (results.map (makeLoadDoc cfg)) ∧
    ∀ r ∈ results, (makeLoadDoc cfg r).metadata.map Prod.fst =
      [chars "Published", chars "Title", chars "Authors", chars "Summary"] ++
        (if cfg.load_all_available_meta then
          [chars "entry_id", chars "published_first_time", chars "comment",
            chars "journal_ref", chars "doi", chars "primary_category",
            chars "categories", chars "links"]
         else []) := by
  refine ⟨?_, ?_⟩
  · simp [lazy_load_run, fetch_results, h]
  · intro r _
    by_cases hm : cfg.load_all_available_meta <;>
      simp [makeLoadDoc, loadBaseMetadata, extraMetadata, hm]

/-- C4, witness: the amended statement at the default configuration,
whose full-metadata mode is enabled. -/
theorem C4_amended_witness :
    lazy_load_run defaultConfig true (okClient [sampleResult]) (chars "KAN") =
      Except.ok ([sampleResult].map (makeLoadDoc defaultConfig)) ∧
    ∀ r ∈ [sampleResult], (makeLoadDoc defaultConfig r).metadata.map Prod.fst =
      [chars "Published", chars "Title", chars "Authors", chars "Summary"] ++
        (if defaultConfig.load_all_available_meta then
          [chars "entry_id", chars "published_first_time", chars "comment",
            chars "journal_ref", chars "doi", chars "primary_category",
            chars "categories", chars "links"]
         else []) :=
  C4_amended defaultConfig (okClient [sampleResult]) (chars "KAN")
    [sampleResult] rfl

/-- C5, counterexample: in the success-path trace of lazy_load, the
Document of result 0 is yielded as the fifth event, and at that moment —
all events up to and including the yield executed — the temporary PDF
file of result 0 still exists on disk: os.remove only runs after the
yield, when the consumer resumes the generator. This refutes the claim
that the file no longer exists when the Document is produced. -/
theorem C5_counterexample :
    (lazy_load_trace 1)[4]? = some (Event.yieldDoc 0) ∧
    fileExists ((lazy_load_trace 1).take 5) 0 = true := by
  decide

/-- C5, as amended: for each result i, the trace yields the Document of
result i and removes its temporary file as the immediately following
event, so after the removal the executed events are exactly the import
check, the search call and the first i+1 loop iterations — the file of
result i still exists at the moment its Document is yielded, and is
deleted when the generator resumes, before any processing of result i+1
begins. -/
theorem C5_amended (n i : Nat) (h : i < n) :
    (lazy_load_trace n)[4 * i + 4]? = some (Event.yieldDoc i) ∧
    (lazy_load_trace n)[4 * i + 5]? = some (Event.removeFile i) ∧
    fileExists ((lazy_load_trace n).take (4 * i + 5)) i = true ∧
    fileExists ((lazy_load_trace n).take (4 * i + 6)) i = false ∧
    (lazy_load_trace n).take (4 * i + 6) =
      Event.importCheck :: Event.searchCall :: bodyTrace 0 (i + 1) := by
  have hget := bodyTrace_getElem i 0 n h
  have hmid := bodyTrace_take_mid i 0 n h
  have hmul := bodyTrace_take_mul (i + 1) 0 n (by omega)
  simp only [Nat.zero_add] at hget hmid hmul
  have htake5 : (lazy_load_trace n).take (4 * i + 5) =
      Event.importCheck :: Event.searchCall ::
        (bodyTrace 0 i ++
          [Event.download i, Event.extract i, Event.yieldDoc i]) := by
    rw [lazy_load_trace, show 4 * i + 5 = (4 * i + 3) + 1 + 1 from by omega]
    simp only [List.take_succ_cons]
    rw [hmid]
  have htake6 : (lazy_load_trace n).take (4 * i + 6) =
      Event.importCheck :: Event.searchCall :: bodyTrace 0 (i + 1) := by
    rw [lazy_load_trace, show 4 * i + 6 = 4 * (i + 1) + 1 + 1 from by omega]
    simp only [List.take_succ_cons]
    rw [hmul]
  refine ⟨?_, ?_, ?_, ?_, htake6⟩
  · rw [lazy_load_trace, show 4 * i + 4 = (4 * i + 2) + 1 + 1 from by omega]
    simp only [List.getElem?_cons_succ]
    exact hget.2.1
  · rw [lazy_load_trace, show 4 * i + 5 = (4 * i + 3) + 1 + 1 from by omega]
    simp only [List.getElem?_cons_succ]
    exact hget.2.2
  · have hnotrem : Event.removeFile i ∉ bodyTrace 0 i :=
      (not_mem_bodyTrace i 0 i (by omega)).2
    rw [htake5]
    simp [fileExists, hnotrem]
  · have hrem : Event.removeFile i ∈ bodyTrace 0 (i + 1) :=
      (mem_bodyTrace_of_lt (i + 1) 0 i (by omega) (by omega)).2
    rw [htake6]
    simp [fileExists, hrem]

/-- C5, witness: the amended statement for a one-result trace. -/
theorem C5_amended_witness :
    0 < 1 ∧
    ((lazy_load_trace 1)[4 * 0 + 4]? = some (Event.yieldDoc 0) ∧
     (lazy_load_trace 1)[4 * 0 + 5]? = some (Event.removeFile 0) ∧
     fileExists ((lazy_load_trace 1).take (4 * 0 + 5)) 0 = true ∧
     fileExists ((lazy_load_trace 1).take (4 * 0 + 6)) 0 = false ∧
     (lazy_load_trace 1).take (4 * 0 + 6) =
       Event.importCheck :: Event.searchCall :: bodyTrace 0 (0 + 1)) :=
  ⟨by decide, C5_amended 1 0 (by decide)⟩

/-- C6, counterexample: with a content limit of 5 characters, the
Document produced by get_summaries_as_docs carries the 17-character
summary verbatim — the summary path never applies doc_content_chars_max,
so the claimed bound fails for Documents of the summary projection. -/
theorem C6_counterexample :
    get_summaries_as_docs tinyConfig (okClient [sampleResult]) (chars "KAN") =
      [⟨sampleResult.summary, summaryMetadata sampleResult⟩] ∧
    sampleResult.summary.length = 17 ∧
    tinyConfig.doc_content_chars_max = some 5 ∧ ¬ (17 ≤ 5) := by
  refine ⟨rfl, ?_, rfl, ?_⟩ <;> decide

/-- C6, as amended: every Document produced by the full-text retrieval
path (lazy_load, and load which materializes it) has content of length
at most doc_content_chars_max when that limit is set; Documents of the
summary projection carry the summary text verbatim instead. -/
theorem C6_amended (cfg : Config) (client : Client) (q : Str)
    (docs : List Document) (m : Nat)
    (h : lazy_load_run cfg true client q = Except.ok docs)
    (hm : cfg.doc_content_chars_max = some m) :
    ∀ d ∈ docs, d.page_content.length ≤ m := by
  intro d hd
  rw [lazy_load_run] at h
  simp only [Bool.not_true, Bool.false_eq_true, if_false] at h
  cases hfetch : fetch_results cfg client (scrub q) with
  | error e => rw [hfetch] at h; cases h
  | ok results =>
      rw [hfetch] at h
      injection h with h
      subst h
      obtain ⟨r, _, rfl⟩ := List.mem_map.mp hd
      simp only [makeLoadDoc, hm, truncate]
      exact List.length_take_le m _

/-- C6, witness: the amended statement at the 5-character limit, for
the one Document the concrete client yields. -/
theorem C6_witness :
    (makeLoadDoc tinyConfig sampleResult).page_content.length ≤ 5 :=
  C6_amended tinyConfig (okClient [sampleResult]) (chars "KAN")
    [makeLoadDoc tinyConfig sampleResult] 5 rfl rfl
    (makeLoadDoc tinyConfig sampleResult) (by simp)

/-- C7, counterexample: lazy_load is a generator function (its body
contains a yield), so calling it merely creates a suspended generator
and executes no body event at all — the fitz import check is not among
the events the call itself executes, and only runs (and raises) when the
first Document is requested. This refutes the claim that lazy_load fails
immediately and synchronously at call time. -/
theorem C7_counterexample :
    lazy_load_call_trace = ([] : List Event) ∧
    Event.importCheck ∉ lazy_load_call_trace ∧
    failed_import_trace = [Event.importCheck] := by
  refine ⟨rfl, ?_, rfl⟩
  decide

/-- C7, as amended: when fitz (PyMuPDF) is unavailable, the full-text
computation fails with the ImportError for every client — so no search
request is issued and the failed body executes no search-call event —
and the failure lands in the error channel of lazy_load (raised at the
first draw from the iterator; load, which materializes the iterator at
call time, raises it at call time), never as an ok result carrying an
"Arxiv exception:" sentinel Document. -/
theorem C7_amended (cfg : Config) (client : Client) (q : Str) :
    lazy_load_run cfg false client q = Except.error LoadErr.importError ∧
    Event.searchCall ∉ failed_import_trace ∧
    ∀ docs : List Document,
      lazy_load_run cfg false client q ≠ Except.ok docs := by
  refine ⟨rfl, by decide, ?_⟩
  intro docs hdocs
  cases hdocs

/-- C7, witness: the amended statement at a concrete client whose
search would succeed — the missing dependency still wins. -/
theorem C7_amended_witness :
    lazy_load_run defaultConfig false (okClient [sampleResult]) (chars "KAN") =
      Except.error LoadErr.importError ∧
    Event.searchCall ∉ failed_import_trace ∧
    ∀ docs : List Document,
      lazy_load_run defaultConfig false (okClient [sampleResult])
        (chars "KAN") ≠ Except.ok docs :=
  C7_amended defaultConfig (okClient [sampleResult]) (chars "KAN")

/-- C8: _fetch_results submits query[: ARXIV_MAX_QUERY_LENGTH] with
top_k_results to the external client: the submitted query is the
first-N-characters truncation of the input, its length is exactly N for
inputs longer than N, and inputs of length at most N are submitted
unchanged. -/
theorem C8_confirmed (cfg : Config) (client : Client) (q : Str) :
    fetch_results cfg client q =
      client (submitted_query cfg q) cfg.top_k_results ∧
    submitted_query cfg q = q.take cfg.ARXIV_MAX_QUERY_LENGTH ∧
    (cfg.ARXIV_MAX_QUERY_LENGTH < q.length →
      (submitted_query cfg q).length = cfg.ARXIV_MAX_QUERY_LENGTH) ∧
    (q.length ≤ cfg.ARXIV_MAX_QUERY_LENGTH → submitted_query cfg q = q) := by
  refine ⟨rfl, rfl, ?_, ?_⟩
  · intro hlt
    simp only [submitted_query, List.length_take]
    omega
  · intro hle
    simp [submitted_query, List.take_of_length_le hle]

/-- C8, witness: the truncation contract at a 3-character limit, for a
5-character and a 2-character query. -/
theorem C8_witness :
    (queryCfg.ARXIV_MAX_QUERY_LENGTH < (chars "KANSX").length ∧
      (submitted_query queryCfg (chars "KANSX")).length =
        queryCfg.ARXIV_MAX_QUERY_LENGTH) ∧
    ((chars "KA").length ≤ queryCfg.ARXIV_MAX_QUERY_LENGTH ∧
      submitted_query queryCfg (chars "KA") = chars "KA") :=
  ⟨⟨by decide,
    (C8_confirmed queryCfg (okClient []) (chars "KANSX")).2.2.1 (by decide)⟩,
   ⟨by decide,
    (C8_confirmed queryCfg (okClient []) (chars "KA")).2.2.2 (by decide)⟩⟩

/-- C9: a successful search with zero results is not an error: run
returns the fixed string "No good Arxiv Result was found",
get_summaries_as_docs returns the empty list, and lazy_load (hence
load) produces the empty sequence in the success channel. -/
theorem C9_confirmed (cfg : Config) (client : Client) (q : Str)
    (h : client (submitted_query cfg q) cfg.top_k_results = Except.ok [])
    (hs : client (submitted_query cfg (scrub q)) cfg.top_k_results =
      Except.ok []) :
    run cfg client q = chars "No good Arxiv Result was found" ∧
    get_summaries_as_docs cfg client q = [] ∧
    lazy_load_run cfg true client q = Except.ok [] := by
  refine ⟨?_, ?_, ?_⟩
  · simp [run, fetch_results, h]
  · simp [get_summaries_as_docs, fetch_results, h]
  · simp [lazy_load_run, fetch_results, hs]

/-- C9, witness: the zero-result contract at a concrete empty client. -/
theorem C9_witness :
    run defaultConfig (okClient []) (chars "KAN") =
      chars "No good Arxiv Result was found" ∧
    get_summaries_as_docs defaultConfig (okClient []) (chars "KAN") = [] ∧
    lazy_load_run defaultConfig true (okClient []) (chars "KAN") =
      Except.ok [] :=
  C9_confirmed defaultConfig (okClient []) (chars "KAN") rfl rfl

/-- C10: on a recognized search error, get_summaries_as_docs returns a
single sentinel Document built without a metadata argument, so its
metadata is the default empty dict: none of the keys Entry ID,
Published, Title or Authors is present. -/
theorem C10_confirmed (cfg : Config) (client : Client) (q : Str)
    (ex : ArxivErr)
    (h : client (submitted_query cfg q) cfg.top_k_results =
      Except.error ex) :
    get_summaries_as_docs cfg client q = [⟨arxivExceptionMsg ex, []⟩] ∧
    ∀ d ∈ get_summaries_as_docs cfg client q, d.metadata = [] := by
  have hd : get_summaries_as_docs cfg client q =
      [⟨arxivExceptionMsg ex, []⟩] := by
    simp [get_summaries_as_docs, fetch_results, h]
  refine ⟨hd, ?_⟩
  intro d hdm
  rw [hd] at hdm
  simp only [List.mem_singleton] at hdm
  subst hdm
  rfl

/-- C10, witness: the sentinel Document of a concrete erroring client
has the empty metadata dict. -/
theorem C10_witness :
    get_summaries_as_docs defaultConfig (errClient sampleErr) (chars "KAN") =
      [⟨arxivExceptionMsg sampleErr, []⟩] ∧
    ∀ d ∈ get_summaries_as_docs defaultConfig (errClient sampleErr)
        (chars "KAN"), d.metadata = [] :=
  C10_confirmed defaultConfig (errClient sampleErr) (chars "KAN")
    sampleErr rfl

end ArxivWrapper
